import Mathlib

/-!
# Ponto eletrônico NFC (ESP8266): configuration and domain records

A verification development for the two headers of the firmware:

* `credentials.h`: the compiled-in access-point and admin credentials and the
  table of known WiFi networks (`availableNetworks`);
* `structs.h`: the plain data records `User` and `Record`.

C strings are embedded as `String` values (every literal of the headers is
ASCII, so its byte length is its character count; `strlen` below counts
bytes).  Fixed-size C arrays are embedded as lists that carry their length.
-/

namespace Ponto

/-! ## credentials.h -/

/-- The `const char* ap_ssid` literal. -/
def ap_ssid : String := "Ponto-Eletronico"

/-- The `const char* ap_password` literal. -/
def ap_password : String := "test54487"

/-- The `const char* adminUser` literal. -/
def adminUser : String := "admin"

/-- The `const char* adminPass` literal. -/
def adminPass : String := "password"

/-- The macro `MAX_WIFI_NETWORKS`. -/
def MAX_WIFI_NETWORKS : Nat := 2

/-- The record `struct WiFiNetwork { const char* ssid; const char* password; }`. -/
structure WiFiNetwork where
  ssid : String
  password : String
deriving DecidableEq, Repr

/-- The entries the initializer of `availableNetworks[MAX_WIFI_NETWORKS]`
supplies, in source order. -/
def availableNetworks : List WiFiNetwork :=
  [ { ssid := "AvailableWifiNetworkName", password := "passwordOfSaidWifi" },
    { ssid := "SecondaryWifi", password := "password2" } ]

/-- Length of a C string in bytes (the count `strlen` returns). -/
def strlen (s : String) : Nat := s.utf8ByteSize

/-! ## Declared types of the configuration objects

Each string object of `credentials.h` is declared with the declarator
`const char*`: the `const` qualifies the characters pointed to, and nothing
qualifies the pointer object itself.  `availableNetworks` is declared as a
plain (unqualified) array of `WiFiNetwork`, whose two members use the same
declarator. -/

/-- Qualifiers of a `char` pointer declaration. -/
structure CharPtrDecl where
  /-- Whether `const` qualifies the characters pointed to (`const char *p`). -/
  pointeeConst : Bool
  /-- Whether `const` qualifies the pointer object (`char * const p`). -/
  pointerConst : Bool
deriving DecidableEq, Repr

/-- The declarator `const char*` used by every string of `credentials.h`. -/
def constCharPtr : CharPtrDecl := { pointeeConst := true, pointerConst := false }

/-- Whether the declaration of `availableNetworks` carries a `const` qualifier
(`WiFiNetwork availableNetworks[MAX_WIFI_NETWORKS] = ...` carries none). -/
def availableNetworksConst : Bool := false

/-- The string objects of the configuration. -/
inductive ConfigObject where
  | ap_ssid
  | ap_password
  | adminUser
  | adminPass
  | networkSsid (i : Fin MAX_WIFI_NETWORKS)
  | networkPassword (i : Fin MAX_WIFI_NETWORKS)
deriving DecidableEq, Repr

/-- Effective qualifiers of each configuration object as an lvalue: a member of
an array element inherits the qualifier of the array on the object itself. -/
def declOf : ConfigObject → CharPtrDecl
  | .ap_ssid => constCharPtr
  | .ap_password => constCharPtr
  | .adminUser => constCharPtr
  | .adminPass => constCharPtr
  | .networkSsid _ =>
      { constCharPtr with pointerConst := constCharPtr.pointerConst || availableNetworksConst }
  | .networkPassword _ =>
      { constCharPtr with pointerConst := constCharPtr.pointerConst || availableNetworksConst }

/-- The operations a program can attempt on a pointer object. -/
inductive Access where
  /-- Retrieve the value (`x = p`, `p[i]` as an rvalue). -/
  | read
  /-- Store a new pointer in the object (`p = q`). -/
  | assign
  /-- Store a character through the pointer (`p[i] = c`). -/
  | writeChars
deriving DecidableEq, Repr

/-- Whether the type checker accepts the access on an object with the given
qualifiers: an object is a modifiable lvalue exactly when it is not
`const`-qualified. -/
def admits (d : CharPtrDecl) : Access → Bool
  | .read => true
  | .assign => !d.pointerConst
  | .writeChars => !d.pointeeConst

/-! ## structs.h -/

/-- The Arduino `byte` type: an 8-bit unsigned value. -/
abbrev Byte := Fin 256

/-- The value of a `char` cell, as a raw byte. -/
abbrev CChar := Fin 256

/-- A fixed-size C array `T a[n]`: `n` cells, each holding some value. -/
structure CArray (α : Type) (n : Nat) where
  data : List α
  size_eq : data.length = n
deriving DecidableEq

/-- Cell `i` of a C array, for `i` inside the array. -/
def CArray.get {α : Type} {n : Nat} (a : CArray α n) (i : Fin n) : α :=
  a.data.get (i.cast a.size_eq.symm)

/-- Width in bits of `unsigned long` on the ESP8266 toolchain (a 32-bit ABI). -/
def UNSIGNED_LONG_BITS : Nat := 32

/-- The C type `unsigned long` on the target. -/
structure UnsignedLong where
  val : Nat
  isLt : val < 2 ^ UNSIGNED_LONG_BITS
deriving DecidableEq

/-- Conversion to `unsigned long`: reduction modulo `2 ^ UNSIGNED_LONG_BITS`. -/
def UnsignedLong.ofNat (n : Nat) : UnsignedLong :=
  ⟨n % 2 ^ UNSIGNED_LONG_BITS, Nat.mod_lt n (by decide)⟩

/-- The C operator `+` on `unsigned long`. -/
def UnsignedLong.add (a b : UnsignedLong) : UnsignedLong :=
  UnsignedLong.ofNat (a.val + b.val)

/-- The C operator `-` on `unsigned long`. -/
def UnsignedLong.sub (a b : UnsignedLong) : UnsignedLong :=
  UnsignedLong.ofNat (a.val + 2 ^ UNSIGNED_LONG_BITS - b.val)

/-- The C operator `*` on `unsigned long`. -/
def UnsignedLong.mul (a b : UnsignedLong) : UnsignedLong :=
  UnsignedLong.ofNat (a.val * b.val)

/-- The record `struct User`. -/
structure User where
  /-- Field `byte uid[4]`. -/
  uid : CArray Byte 4
  /-- Field `char name[16 + 1]`. -/
  name : CArray CChar (16 + 1)
  /-- Field `bool lastState`: true = in, false = out. -/
  lastState : Bool
deriving DecidableEq

/-- The record `struct Record`. -/
structure Record where
  /-- Field `byte uid[4]`. -/
  uid : CArray Byte 4
  /-- Field `unsigned long timestamp`. -/
  timestamp : UnsignedLong
  /-- Field `bool isIn`: true = punch in, false = punch out. -/
  isIn : Bool
deriving DecidableEq

/-- The text of a `char` buffer read as a C string without leaving the buffer:
the cells before the first zero cell. -/
def cstrText (buf : List CChar) : List CChar :=
  buf.takeWhile (fun c => decide (c ≠ 0))

/-- The display label held in the `name` buffer of a user. -/
def User.label (u : User) : List CChar := cstrText u.name.data

/-- The `name` buffer holds a terminator: some cell of it is zero. -/
def User.Terminated (u : User) : Prop := ∃ i : Fin (16 + 1), u.name.get i = 0

/-- The `name` buffer holds a label of at most 16 characters followed by a
terminator inside the buffer: some index `i ≤ 16` has `name[i] = 0`, no
earlier cell is zero, and the label is the cells before `i`. -/
def User.NameBounded (u : User) : Prop :=
  u.label.length ≤ 16 ∧
    ∃ i : Fin (16 + 1), u.name.get i = 0 ∧ (∀ j : Fin (16 + 1), j < i → u.name.get j ≠ 0) ∧
      u.label = u.name.data.take i.val

instance (u : User) : Decidable u.Terminated := by
  unfold User.Terminated; infer_instance

instance (u : User) : Decidable u.NameBounded := by
  unfold User.NameBounded; infer_instance

/-- A user whose `name` buffer is filled with seventeen letters `A`. -/
def unterminatedUser : User :=
  { uid := ⟨[0x04, 0x1A, 0x2B, 0x3C], rfl⟩
    name := ⟨List.replicate 17 65, rfl⟩
    lastState := false }

/-- The user of the example scenario: uid `04 1A 2B 3C`, name `Alice`. -/
def alice : User :=
  { uid := ⟨[0x04, 0x1A, 0x2B, 0x3C], rfl⟩
    name := ⟨[65, 108, 105, 99, 101] ++ List.replicate 12 0, by decide⟩
    lastState := false }

/-- Entry `i` of the known-network table, for `i` below the capacity. -/
def networkEntry (i : Fin MAX_WIFI_NETWORKS) : WiFiNetwork :=
  availableNetworks.get (i.cast rfl)

theorem CArray.ext_data {α : Type} {n : Nat} {a b : CArray α n} (h : a.data = b.data) :
    a = b := by
  cases a; cases b; cases h; rfl

theorem CArray.get_eq_getElem {α : Type} {n : Nat} (a : CArray α n) (i : Fin n)
    (h : i.val < a.data.length) : a.get i = a.data[i.val] := rfl

theorem CArray.eq_iff_cells {α : Type} {n : Nat} (a b : CArray α n) :
    a = b ↔ ∀ i : Fin n, a.get i = b.get i := by
  constructor
  · intro h i
    rw [h]
  · intro h
    apply CArray.ext_data
    apply List.ext_getElem
    · rw [a.size_eq, b.size_eq]
    · intro k hk hk2
      have hn : k < n := by rw [← a.size_eq]; exact hk
      have := h ⟨k, hn⟩
      rw [CArray.get_eq_getElem a ⟨k, hn⟩ hk, CArray.get_eq_getElem b ⟨k, hn⟩ hk2] at this
      exact this

theorem cstrText_length_le (l : List CChar) : (cstrText l).length ≤ l.length := by
  induction l with
  | nil => simp [cstrText]
  | cons c t ih =>
    unfold cstrText at ih ⊢
    rw [List.takeWhile_cons]
    split
    · simp only [List.length_cons]; omega
    · simp

theorem cstrText_of_zero_mem (l : List CChar) (h : (0 : CChar) ∈ l) :
    ∃ hk : (cstrText l).length < l.length,
      l[(cstrText l).length] = 0 ∧
      (∀ j (hj : j < l.length), j < (cstrText l).length → l[j] ≠ 0) ∧
      cstrText l = l.take (cstrText l).length := by
  induction l with
  | nil => simp at h
  | cons c t ih =>
    by_cases hc : c = 0
    · subst hc
      have e : cstrText ((0 : CChar) :: t) = [] := by simp [cstrText]
      rw [e]
      refine ⟨by simp, by simp, ?_, by simp⟩
      intro j _ hj
      simp at hj
    · have ht : (0 : CChar) ∈ t := by
        rcases List.mem_cons.mp h with h0 | h0
        · exact absurd h0.symm hc
        · exact h0
      obtain ⟨hk, hz, hbefore, htake⟩ := ih ht
      have e : cstrText (c :: t) = c :: cstrText t := by simp [cstrText, hc]
      rw [e]
      refine ⟨by simpa using hk, by simpa using hz, ?_, ?_⟩
      · intro j hj hlt
        cases j with
        | zero => simpa using hc
        | succ m =>
          simp only [List.length_cons, Nat.add_lt_add_iff_right] at hj hlt
          simpa using hbefore m hj hlt
      · simp only [List.length_cons, List.take_succ_cons]
        rw [← htake]

theorem UnsignedLong.two_pow_bits : 2 ^ UNSIGNED_LONG_BITS = 4294967296 := by decide

/-! ## The known-network table -/

/-- Claim C1: the known-network table never holds more entries than its declared
capacity: the number of entries of `availableNetworks` is at most
`MAX_WIFI_NETWORKS`, the capacity is 2, and the initializer supplies exactly
2 entries, so every slot is initialized and none lies beyond the bound. -/
theorem availableNetworks_within_capacity :
    availableNetworks.length ≤ MAX_WIFI_NETWORKS ∧ MAX_WIFI_NETWORKS = 2 ∧
      availableNetworks.length = 2 := by
  decide

/-- Claim C7: every network identifier of the configuration is non-empty and of
bounded length: `ap_ssid` and the ssid of every entry of `availableNetworks`
have between 1 and 32 bytes. -/
theorem ssid_length_bounds :
    (1 ≤ strlen ap_ssid ∧ strlen ap_ssid ≤ 32) ∧
      ∀ n ∈ availableNetworks, 1 ≤ strlen n.ssid ∧ strlen n.ssid ≤ 32 := by
  decide

theorem ssid_length_bounds_witness :
    ({ ssid := "SecondaryWifi", password := "password2" } : WiFiNetwork) ∈ availableNetworks ∧
      1 ≤ strlen "SecondaryWifi" ∧ strlen "SecondaryWifi" ≤ 32 :=
  ⟨by decide, ssid_length_bounds.2 { ssid := "SecondaryWifi", password := "password2" }
    (by decide)⟩

/-- Claim C9: every compiled-in WiFi password is a valid WPA2 passphrase:
`ap_password` and the password of every entry of `availableNetworks` have
between 8 and 63 characters. -/
theorem password_length_bounds :
    (8 ≤ ap_password.length ∧ ap_password.length ≤ 63 ∧
        8 ≤ strlen ap_password ∧ strlen ap_password ≤ 63) ∧
      ∀ n ∈ availableNetworks, 8 ≤ n.password.length ∧ n.password.length ≤ 63 ∧
        8 ≤ strlen n.password ∧ strlen n.password ≤ 63 := by
  decide

theorem password_length_bounds_witness :
    ({ ssid := "AvailableWifiNetworkName", password := "passwordOfSaidWifi" } : WiFiNetwork)
        ∈ availableNetworks ∧
      8 ≤ "passwordOfSaidWifi".length ∧ "passwordOfSaidWifi".length ≤ 63 ∧
        8 ≤ strlen "passwordOfSaidWifi" ∧ strlen "passwordOfSaidWifi" ≤ 63 :=
  ⟨by decide, password_length_bounds.2
    { ssid := "AvailableWifiNetworkName", password := "passwordOfSaidWifi" } (by decide)⟩

/-- Claim C10: the network identifiers of the configuration are pairwise
distinct: two entries of `availableNetworks` at different indices below
`MAX_WIFI_NETWORKS` have different ssids, and no entry has the ssid `ap_ssid`
of the hosted network. -/
theorem ssids_pairwise_distinct :
    (∀ i j : Fin MAX_WIFI_NETWORKS, i ≠ j → (networkEntry i).ssid ≠ (networkEntry j).ssid) ∧
      ∀ i : Fin MAX_WIFI_NETWORKS, (networkEntry i).ssid ≠ ap_ssid := by
  decide

theorem ssids_pairwise_distinct_witness :
    (⟨0, by decide⟩ : Fin MAX_WIFI_NETWORKS) ≠ ⟨1, by decide⟩ ∧
      (networkEntry ⟨0, by decide⟩).ssid ≠ (networkEntry ⟨1, by decide⟩).ssid :=
  ⟨by decide, ssids_pairwise_distinct.1 ⟨0, by decide⟩ ⟨1, by decide⟩ (by decide)⟩

/-! ## Declared types of the configuration -/

/-- Claim C4, as stated, fails: the declared type of `ap_ssid` (`const char*`,
a non-`const` pointer) admits storing a new pointer in the object, an
operation other than value retrieval. -/
theorem config_not_retrieval_only :
    ¬ ∀ (o : ConfigObject) (a : Access), admits (declOf o) a = true → a = Access.read := by
  intro h
  exact absurd (h ConfigObject.ap_ssid Access.assign (by decide)) (by decide)

/-- Claim C4, amended: for each configuration string (`ap_ssid`, `ap_password`,
`adminUser`, `adminPass`, and the ssid and password of every entry of
`availableNetworks`) the declared type admits value retrieval and admits no
write to the characters (they are `const char`); the pointer objects
themselves are not `const`-qualified, so storing a new pointer in them is
admitted. -/
theorem config_chars_read_only (o : ConfigObject) :
    admits (declOf o) Access.read = true ∧
      admits (declOf o) Access.writeChars = false ∧
      admits (declOf o) Access.assign = true := by
  cases o <;> exact ⟨rfl, rfl, rfl⟩

/-! ## User and Record -/

/-- Claim C2, as stated, fails: a `User` whose 17-byte `name` buffer holds
seventeen letters `A` has no terminator inside the buffer, and the text held
in the buffer is 17 characters long. -/
theorem unterminatedUser_not_nameBounded :
    ¬ unterminatedUser.NameBounded ∧ ¬ unterminatedUser.Terminated ∧
      unterminatedUser.label.length = 17 := by
  decide

/-- Claim C2, amended: the `name` buffer of every `User` has exactly 17 cells
and the text held in it has at most 17 characters; whenever the buffer holds
a terminator, the text is at most 16 characters long and is followed by a
terminator inside the buffer (some index `i ≤ 16` has `name[i] = 0`, no
earlier cell is zero, and the label is the cells before `i`). -/
theorem name_bounded_of_terminated (u : User) :
    u.name.data.length = 17 ∧ u.label.length ≤ 17 ∧ (u.Terminated → u.NameBounded) := by
  have hlen : u.name.data.length = 17 := u.name.size_eq
  refine ⟨hlen, ?_, ?_⟩
  · have := cstrText_length_le u.name.data
    unfold User.label
    omega
  · rintro ⟨i, hi⟩
    have hmem : (0 : CChar) ∈ u.name.data := by
      rw [← hi]
      unfold CArray.get
      exact List.get_mem _ _ _
    obtain ⟨hk, hz, hbefore, htake⟩ := cstrText_of_zero_mem u.name.data hmem
    have hk17 : (cstrText u.name.data).length < 16 + 1 := by omega
    refine ⟨?_, ⟨(cstrText u.name.data).length, hk17⟩, ?_, ?_, ?_⟩
    · unfold User.label
      omega
    · rw [CArray.get_eq_getElem u.name _ hk]
      exact hz
    · intro j hj
      have hj2 : j.val < u.name.data.length := by rw [hlen]; exact j.isLt
      rw [CArray.get_eq_getElem u.name j hj2]
      exact hbefore j.val hj2 hj
    · exact htake

theorem name_bounded_of_terminated_witness : alice.Terminated ∧ alice.NameBounded :=
  ⟨by decide, (name_bounded_of_terminated alice).2.2 (by decide)⟩

/-- Claim C5: for every `User` `u` and every `Record` `r`, both `uid` fields
have exactly 4 bytes, and the identifiers are equal by value exactly when
they agree at every index 0..3. -/
theorem uid_eq_iff_bytes (u : User) (r : Record) :
    u.uid.data.length = 4 ∧ r.uid.data.length = 4 ∧
      (r.uid = u.uid ↔ ∀ i : Fin 4, r.uid.get i = u.uid.get i) :=
  ⟨u.uid.size_eq, r.uid.size_eq, CArray.eq_iff_cells r.uid u.uid⟩

/-- Claim C6: for every `Record`, `isIn` is exactly one of true (punch-in) and
false (punch-out), and `timestamp` is a non-negative integer below `2^32`
whose arithmetic (`+`, `-`, `*`) wraps modulo `2^32`. -/
theorem record_fields_well_defined (r : Record) :
    (r.isIn = true ∨ r.isIn = false) ∧ ¬ (r.isIn = true ∧ r.isIn = false) ∧
      0 ≤ r.timestamp.val ∧ r.timestamp.val < 2 ^ 32 ∧
      ∀ t : UnsignedLong,
        (r.timestamp.add t).val = (r.timestamp.val + t.val) % 2 ^ 32 ∧
        ((r.timestamp.sub t).val : Int) = ((r.timestamp.val : Int) - (t.val : Int)) % 2 ^ 32 ∧
        (r.timestamp.mul t).val = (r.timestamp.val * t.val) % 2 ^ 32 := by
  have hr := r.timestamp.isLt
  rw [UnsignedLong.two_pow_bits] at hr
  refine ⟨?_, ?_, Nat.zero_le _, ?_, ?_⟩
  · cases r.isIn <;> simp
  · cases r.isIn <;> simp
  · norm_num; exact hr
  · intro t
    have ht := t.isLt
    rw [UnsignedLong.two_pow_bits] at ht
    refine ⟨?_, ?_, ?_⟩
    · simp only [UnsignedLong.add, UnsignedLong.ofNat, UnsignedLong.two_pow_bits]
      norm_num
    · simp only [UnsignedLong.sub, UnsignedLong.ofNat, UnsignedLong.two_pow_bits]
      norm_num
      omega
    · simp only [UnsignedLong.mul, UnsignedLong.ofNat, UnsignedLong.two_pow_bits]
      norm_num

end Ponto
